import Mathlib

set_option maxRecDepth 10000

/-!
Shallow embedding of the repository src/index.tsx (the enterprise query
engine single-page application). Strings are modelled as lists of Unicode
scalar values; the inputs of all claims are ASCII, where this coincides
with the JavaScript UTF-16 view. Regex-based global replacement is
modelled by an explicit left-to-right scanner that reproduces the
leftmost-match, non-overlapping semantics of String.prototype.replace
with the global flag, including the word-boundary and alternation-order
behaviour of each concrete pattern used by the source. JSON numbers are
kept as their written lexemes and given exact rational values; this
agrees with the JavaScript double semantics on all canonical short
decimal numerals appearing in the claims.
-/

namespace NLQ

/-- JavaScript regex word character class, [A-Za-z0-9_], as used by the
word-boundary assertions in the highlighting patterns of highlightCode. -/
def isWordChar (c : Char) : Bool :=
  c.isAlpha || c.isDigit || c == '_'

/-- ECMAScript whitespace and line terminators, the character set removed
by String.prototype.trim. -/
def isJsWs (c : Char) : Bool :=
  let n := c.toNat
  n == 9 || n == 10 || n == 11 || n == 12 || n == 13 || n == 32 ||
  n == 160 || n == 5760 || (Nat.ble 8192 n && Nat.ble n 8202) ||
  n == 8232 || n == 8233 || n == 8239 || n == 8287 || n == 12288 || n == 65279

/-- Model of String.prototype.trim: drop leading and trailing whitespace. -/
def jsTrimL (cs : List Char) : List Char :=
  ((cs.dropWhile isJsWs).reverse.dropWhile isJsWs).reverse

/-- Model of String.prototype.trim on the String wrapper type. -/
def jsTrimS (s : String) : String :=
  String.mk (jsTrimL s.toList)

/-- Model of one global single-character replacement pass, as in
code.replace(a regex matching one character, replacement). -/
def replaceAllChar (t : Char) (rep : List Char) : List Char → List Char
  | [] => []
  | c :: cs => (if c == t then rep else [c]) ++ replaceAllChar t rep cs

/-- HTML escaping exactly as in highlightCode lines 200-203: first all
ampersands, then all less-than signs, then all greater-than signs. -/
def escapeHtml (cs : List Char) : List Char :=
  replaceAllChar '>' ("&gt;".toList)
    (replaceAllChar '<' ("&lt;".toList)
      (replaceAllChar '&' ("&amp;".toList) cs))

/-- Opening span tag with the given token class, the markup inserted by
the replacement templates of highlightCode. -/
def spanOpen (cls : List Char) : List Char :=
  "<span class=\"".toList ++ cls ++ "\">".toList

/-- Closing span tag of the inserted markup. -/
def spanClose : List Char := "</span>".toList

/-- Wrap a matched slice in a span of the given token class,
corresponding to the replacement template of a highlighting rule. -/
def wrapTok (cls mat : List Char) : List Char :=
  spanOpen cls ++ mat ++ spanClose

/-- One global regex replacement pass. At every position the rule is
offered the previous character of the ORIGINAL text (for word-boundary
look-behind, as in JavaScript) and the remaining text; on a match it
returns the matched slice together with its replacement, the scanner
emits the replacement and resumes after the match. Fuel equals the
length of the text; every step consumes at least one character, so the
fuel never runs out on the initial call. -/
def scanReplFuel (rule : Option Char → List Char → Option (List Char × List Char)) :
    Nat → Option Char → List Char → List Char
  | 0, _, cs => cs
  | _ + 1, _, [] => []
  | fuel + 1, prev, c :: cs =>
    match rule prev (c :: cs) with
    | some (mat, rep) =>
      if mat.isEmpty then c :: scanReplFuel rule fuel (some c) cs
      else rep ++ scanReplFuel rule fuel mat.getLast? ((c :: cs).drop mat.length)
    | none => c :: scanReplFuel rule fuel (some c) cs

/-- Run one global replacement pass over a whole text. -/
def scanRepl (rule : Option Char → List Char → Option (List Char × List Char))
    (cs : List Char) : List Char :=
  scanReplFuel rule cs.length none cs

/-- The single-quote character, written by code point to keep the
character out of the surface syntax. -/
def squote : Char := Char.ofNat 39

/-- Rule 1 of highlightCode: SQL line comments, the pattern of two
hyphens followed by the longest run of non-newline characters, wrapped
in token-comment style. -/
def commentRule (_ : Option Char) (cs : List Char) : Option (List Char × List Char) :=
  match cs with
  | '-' :: '-' :: rest =>
    let mat := '-' :: '-' :: rest.takeWhile (fun c => !(c == '\n'))
    some (mat, wrapTok ("token-comment".toList) mat)
  | _ => none

/-- Rules 2 and 3 of highlightCode: quoted string literals, a quote, the
longest run of non-quote characters, and a closing quote (no match
without a closing quote), wrapped in token-string style. -/
def quoteRule (q : Char) (_ : Option Char) (cs : List Char) :
    Option (List Char × List Char) :=
  match cs with
  | c :: rest =>
    if c == q then
      let body := rest.takeWhile (fun d => !(d == q))
      if (rest.drop body.length).isEmpty then none
      else
        let mat := q :: (body ++ [q])
        some (mat, wrapTok ("token-string".toList) mat)
    else none
  | [] => none

/-- Case-insensitive character comparison restricted to ASCII, matching
the canonicalisation of a non-unicode case-insensitive JavaScript regex. -/
def ciEq (a b : Char) : Bool := a.toUpper == b.toUpper

/-- Match a literal keyword case-insensitively against the head of the
text, returning the matched slice in its original case (the regex
replacement template uses the whole match). -/
def ciTake : List Char → List Char → Option (List Char)
  | [], _ => some []
  | _ :: _, [] => none
  | k :: ks, c :: cs =>
    if ciEq k c then
      match ciTake ks cs with
      | some r => some (c :: r)
      | none => none
    else none

/-- Word boundary before the current position: start of text or a
preceding non-word character (every keyword starts with a word character). -/
def boundaryBefore : Option Char → Bool
  | none => true
  | some c => !(isWordChar c)

/-- Word boundary after a match: end of text or a following non-word
character (every keyword ends with a word character). -/
def boundaryAfterOk (rest : List Char) : Bool :=
  match rest with
  | [] => true
  | c :: _ => !(isWordChar c)

/-- The keyword vocabulary of highlightCode line 216, in the order of the
regex alternation (alternation order decides which keyword matches when
two could). -/
def sqlKeywords : List (List Char) :=
  List.map String.toList
    ["SELECT", "FROM", "WHERE", "LEFT", "RIGHT", "INNER", "JOIN", "ON",
     "GROUP BY", "ORDER BY", "HAVING", "LIMIT", "AS", "DISTINCT", "CASE",
     "WHEN", "THEN", "ELSE", "END", "WITH", "AND", "OR", "NOT", "IN",
     "NOW", "INTERVAL", "DATE_TRUNC", "AVG", "SUM", "COUNT", "MAX", "MIN",
     "RANK", "OVER", "PARTITION BY", "ROWS", "PRECEDING", "DATE_SUB",
     "ISODate"]

/-- First keyword of the alternation that matches at this position and is
followed by a word boundary; later alternatives are tried when the
boundary after an earlier alternative fails, as regex backtracking does. -/
def firstKeyword (kws : List (List Char)) (cs : List Char) : Option (List Char) :=
  match kws with
  | [] => none
  | k :: rest =>
    match ciTake k cs with
    | some mat =>
      if boundaryAfterOk (cs.drop mat.length) then some mat
      else firstKeyword rest cs
    | none => firstKeyword rest cs

/-- Rule 4 of highlightCode: the case-insensitive keyword pattern with
word boundaries on both sides, wrapped in token-keyword style. -/
def keywordRule (prev : Option Char) (cs : List Char) : Option (List Char × List Char) :=
  if boundaryBefore prev then
    match firstKeyword sqlKeywords cs with
    | some mat => some (mat, wrapTok ("token-keyword".toList) mat)
    | none => none
  else none

/-- The document-query operator vocabulary of highlightCode line 220, in
alternation order, duplicates included. -/
def mongoOps : List (List Char) :=
  List.map String.toList
    ["match", "group", "project", "addFields", "lookup", "sort", "limit",
     "unwind", "cond", "eq", "ne", "gt", "gte", "lt", "lte", "in", "sum",
     "avg", "max", "min", "dateToString", "size", "subtract", "divide",
     "literal", "push", "ne", "and", "or", "in"]

/-- Drop an exact literal from the head of the text, or fail. -/
def dropExact : List Char → List Char → Option (List Char)
  | [], cs => some cs
  | _ :: _, [] => none
  | p :: ps, c :: cs => if p == c then dropExact ps cs else none

/-- The literal text preceding the operator name in the mongo-operator
pattern: an opening token-string span, a double quote and a dollar sign. -/
def mongoStrOpen : List Char :=
  spanOpen ("token-string".toList) ++ ['"', '$']

/-- First operator of the alternation that matches here and is followed
by the closing double quote and closing span tag of the pattern. -/
def firstMongoOp (ops : List (List Char)) (cs : List Char) : Option (List Char) :=
  match ops with
  | [] => none
  | op :: rest =>
    match dropExact op cs with
    | some r =>
      match dropExact ('"' :: spanClose) r with
      | some _ => some op
      | none => firstMongoOp rest cs
    | none => firstMongoOp rest cs

/-- Rule of highlightCode lines 220-221: a quoted document-query operator
already wrapped by the double-quote rule is re-wrapped in token-keyword
style, keeping the quotes. -/
def mongoOpRule (_ : Option Char) (cs : List Char) : Option (List Char × List Char) :=
  match dropExact mongoStrOpen cs with
  | some r =>
    match firstMongoOp mongoOps r with
    | some op =>
      let mat := mongoStrOpen ++ op ++ '"' :: spanClose
      let rep := spanOpen ("token-keyword".toList) ++ '"' :: '$' :: op ++ '"' :: spanClose
      some (mat, rep)
    | none => none
  | none => none

/-- Rule 4 (numbers) of highlightCode line 224: an integer with an
optional fraction, with word boundaries on both sides; when the boundary
after the fraction fails the regex backtracks to the integer alone,
whose following full stop always satisfies the boundary. -/
def numberRule (prev : Option Char) (cs : List Char) : Option (List Char × List Char) :=
  if boundaryBefore prev then
    let ip := cs.takeWhile Char.isDigit
    if ip.isEmpty then none
    else
      let rest1 := cs.drop ip.length
      match rest1 with
      | '.' :: r2 =>
        let fp := r2.takeWhile Char.isDigit
        if fp.isEmpty then some (ip, wrapTok ("token-number".toList) ip)
        else if boundaryAfterOk (r2.drop fp.length) then
          let mat := ip ++ '.' :: fp
          some (mat, wrapTok ("token-number".toList) mat)
        else some (ip, wrapTok ("token-number".toList) ip)
      | _ =>
        if boundaryAfterOk rest1 then some (ip, wrapTok ("token-number".toList) ip)
        else none
  else none

/-- The boolean and null literals of highlightCode line 227, in
alternation order, matched case-sensitively. -/
def boolLits : List (List Char) :=
  List.map String.toList ["true", "false", "null"]

/-- First literal of the alternation matching here with a word boundary
after it. -/
def firstLit (ls : List (List Char)) (cs : List Char) : Option (List Char) :=
  match ls with
  | [] => none
  | l :: rest =>
    match dropExact l cs with
    | some r => if boundaryAfterOk r then some l else firstLit rest cs
    | none => firstLit rest cs

/-- Rule 5 of highlightCode line 227: boolean and null literals wrapped
in token-boolean style. -/
def booleanRule (prev : Option Char) (cs : List Char) : Option (List Char × List Char) :=
  if boundaryBefore prev then
    match firstLit boolLits cs with
    | some mat => some (mat, wrapTok ("token-boolean".toList) mat)
    | none => none
  else none

/-- The fixed ordered sequence of highlighting passes of highlightCode
lines 209-227: comments, single-quoted strings, double-quoted strings,
keywords, document-query operators, numbers, booleans. -/
def applyAllRules (cs : List Char) : List Char :=
  scanRepl booleanRule
    (scanRepl numberRule
      (scanRepl mongoOpRule
        (scanRepl keywordRule
          (scanRepl (quoteRule '"')
            (scanRepl (quoteRule squote)
              (scanRepl commentRule cs))))))

mutual

/-- JSON values as produced by JSON.parse: objects keep their fields in
source order, numbers keep their written lexeme. The element and field
lists are part of the mutual inductive so that every traversal below is
plain structural recursion. -/
inductive Json where
  | null : Json
  | bool : Bool → Json
  | num : List Char → Json
  | str : List Char → Json
  | arr : JsonList → Json
  | obj : JsonFields → Json

/-- Elements of a JSON array. -/
inductive JsonList where
  | nil : JsonList
  | cons : Json → JsonList → JsonList

/-- Members of a JSON object, in source order. -/
inductive JsonFields where
  | nil : JsonFields
  | cons : List Char → Json → JsonFields → JsonFields

end

/-- JSON insignificant whitespace: space, tab, newline, carriage return. -/
def isJsonWs (c : Char) : Bool :=
  c == ' ' || c == '\t' || c == '\n' || c == '\r'

/-- Value of a hexadecimal digit, if the character is one. -/
def hexVal (c : Char) : Option Nat :=
  let n := c.toNat
  if Nat.ble 48 n && Nat.ble n 57 then some (n - 48)
  else if Nat.ble 65 n && Nat.ble n 70 then some (n - 55)
  else if Nat.ble 97 n && Nat.ble n 102 then some (n - 87)
  else none

/-- Four hexadecimal digits of a unicode escape. -/
def parseHex4 (cs : List Char) : Option (Nat × List Char) :=
  match cs with
  | a :: b :: c :: d :: rest =>
    match hexVal a, hexVal b, hexVal c, hexVal d with
    | some x, some y, some z, some w => some (((x * 16 + y) * 16 + z) * 16 + w, rest)
    | _, _, _, _ => none
  | _ => none

/-- Character for a decoded UTF-16 code unit; a lone surrogate (which a
Lean character cannot hold) is represented by the replacement character.
No claim depends on decoded surrogate content. -/
def cuChar (n : Nat) : Char :=
  if Nat.ble 55296 n && Nat.ble n 57343 then Char.ofNat 65533 else Char.ofNat n

/-- Body of a JSON string after the opening quote: decode escapes,
reject raw control characters, stop at the closing quote. Fuel bounds
the recursion; one character is consumed per step. -/
def parseStrBody : Nat → List Char → Option (List Char × List Char)
  | 0, _ => none
  | fuel + 1, cs =>
    match cs with
    | [] => none
    | '"' :: rest => some ([], rest)
    | '\\' :: e :: rest =>
      let dec : Option (List Char × List Char) :=
        match e with
        | '"' => some (['"'], rest)
        | '\\' => some (['\\'], rest)
        | '/' => some (['/'], rest)
        | 'b' => some ([Char.ofNat 8], rest)
        | 'f' => some ([Char.ofNat 12], rest)
        | 'n' => some (['\n'], rest)
        | 'r' => some (['\r'], rest)
        | 't' => some (['\t'], rest)
        | 'u' =>
          match parseHex4 rest with
          | some (n, r2) =>
            if Nat.ble 55296 n && Nat.ble n 56319 then
              match r2 with
              | '\\' :: 'u' :: r3 =>
                match parseHex4 r3 with
                | some (m, r4) =>
                  if Nat.ble 56320 m && Nat.ble m 57343 then
                    some ([Char.ofNat ((n - 55296) * 1024 + (m - 56320) + 65536)], r4)
                  else some ([Char.ofNat 65533], r2)
                | none => some ([Char.ofNat 65533], r2)
              | _ => some ([Char.ofNat 65533], r2)
            else some ([cuChar n], r2)
          | none => none
        | _ => none
      match dec with
      | some (ds, r) =>
        match parseStrBody fuel r with
        | some (tail, r2) => some (ds ++ tail, r2)
        | none => none
      | none => none
    | c :: rest =>
      if Nat.ble c.toNat 31 then none
      else
        match parseStrBody fuel rest with
        | some (tail, r2) => some (c :: tail, r2)
        | none => none

/-- Integer part of a JSON number: a zero, or a nonzero digit followed
by more digits. -/
def parseIntPart (cs : List Char) : Option (List Char × List Char) :=
  match cs with
  | '0' :: r => some (['0'], r)
  | c :: r =>
    if c.isDigit then
      let ds := r.takeWhile Char.isDigit
      some (c :: ds, r.drop ds.length)
    else none
  | [] => none

/-- Lexeme of a JSON number: sign, integer part, optional fraction,
optional exponent. A malformed fraction or exponent is left unconsumed
and then rejected by the surrounding context, exactly as a strict JSON
parser rejects it. -/
def parseNumLex (cs : List Char) : Option (List Char × List Char) :=
  let p : Option (List Char × List Char) :=
    match cs with
    | '-' :: r =>
      match parseIntPart r with
      | some (d, r2) => some ('-' :: d, r2)
      | none => none
    | _ => parseIntPart cs
  match p with
  | none => none
  | some (ipart, r) =>
    let fr : List Char × List Char :=
      match r with
      | '.' :: r1 =>
        let ds := r1.takeWhile Char.isDigit
        if ds.isEmpty then ([], r) else ('.' :: ds, r1.drop ds.length)
      | _ => ([], r)
    let r2 := fr.2
    let ex : List Char × List Char :=
      match r2 with
      | c :: r1 =>
        if c == 'e' || c == 'E' then
          match r1 with
          | s :: r2a =>
            if s == '+' || s == '-' then
              let ds := r2a.takeWhile Char.isDigit
              if ds.isEmpty then ([], r2) else (c :: s :: ds, r2a.drop ds.length)
            else
              let ds := r1.takeWhile Char.isDigit
              if ds.isEmpty then ([], r2) else (c :: ds, r1.drop ds.length)
          | [] => ([], r2)
        else ([], r2)
      | [] => ([], r2)
    some (ipart ++ fr.1 ++ ex.1, ex.2)

mutual

/-- Strict JSON value at the head of the text (whitespace already
skipped by the caller), as accepted by JSON.parse. -/
def parseVal : Nat → List Char → Option (Json × List Char)
  | 0, _ => none
  | fuel + 1, cs =>
    match cs with
    | '\x7b' :: r =>
      let r1 := List.dropWhile isJsonWs r
      match r1 with
      | '\x7d' :: r2 => some (Json.obj JsonFields.nil, r2)
      | _ =>
        match parseMembers fuel r1 with
        | some (fs, r2) => some (Json.obj fs, r2)
        | none => none
    | '[' :: r =>
      let r1 := List.dropWhile isJsonWs r
      match r1 with
      | ']' :: r2 => some (Json.arr JsonList.nil, r2)
      | _ =>
        match parseItems fuel r1 with
        | some (xs, r2) => some (Json.arr xs, r2)
        | none => none
    | '"' :: r =>
      match parseStrBody (r.length + 1) r with
      | some (s, r2) => some (Json.str s, r2)
      | none => none
    | 't' :: r =>
      match dropExact ("rue".toList) r with
      | some r2 => some (Json.bool true, r2)
      | none => none
    | 'f' :: r =>
      match dropExact ("alse".toList) r with
      | some r2 => some (Json.bool false, r2)
      | none => none
    | 'n' :: r =>
      match dropExact ("ull".toList) r with
      | some r2 => some (Json.null, r2)
      | none => none
    | _ =>
      match parseNumLex cs with
      | some (lex, r) => if lex.isEmpty then none else some (Json.num lex, r)
      | none => none

/-- Comma-separated array items up to the closing bracket. -/
def parseItems : Nat → List Char → Option (JsonList × List Char)
  | 0, _ => none
  | fuel + 1, cs =>
    match parseVal fuel cs with
    | some (v, r) =>
      let r1 := List.dropWhile isJsonWs r
      match r1 with
      | ',' :: r2 =>
        match parseItems fuel (List.dropWhile isJsonWs r2) with
        | some (vs, r3) => some (JsonList.cons v vs, r3)
        | none => none
      | ']' :: r2 => some (JsonList.cons v JsonList.nil, r2)
      | _ => none
    | none => none

/-- Comma-separated object members up to the closing brace. -/
def parseMembers : Nat → List Char → Option (JsonFields × List Char)
  | 0, _ => none
  | fuel + 1, cs =>
    match cs with
    | '"' :: r =>
      match parseStrBody (r.length + 1) r with
      | some (k, r1) =>
        let r2 := List.dropWhile isJsonWs r1
        match r2 with
        | ':' :: r3 =>
          match parseVal fuel (List.dropWhile isJsonWs r3) with
          | some (v, r4) =>
            let r5 := List.dropWhile isJsonWs r4
            match r5 with
            | ',' :: r6 =>
              match parseMembers fuel (List.dropWhile isJsonWs r6) with
              | some (ms, r7) => some (JsonFields.cons k v ms, r7)
              | none => none
            | '\x7d' :: r6 => some (JsonFields.cons k v JsonFields.nil, r6)
            | _ => none
          | none => none
        | _ => none
      | none => none
    | _ => none

end

/-- Model of JSON.parse: a single value surrounded by optional
whitespace and nothing else; failure is returned as none (the thrown
exception of the source is the none case). -/
def jsParseJson (cs : List Char) : Option Json :=
  let cs1 := List.dropWhile isJsonWs cs
  match parseVal (cs1.length + 1) cs1 with
  | some (v, r) => if (List.dropWhile isJsonWs r).isEmpty then some v else none
  | none => none

/-- Model of JSON.parse on the String wrapper type. -/
def jsParseJsonStr (s : String) : Option Json :=
  jsParseJson s.toList

/-- Hexadecimal digit character, lowercase. -/
def hexDigit (n : Nat) : Char :=
  if Nat.ble n 9 then Char.ofNat (48 + n) else Char.ofNat (87 + n)

/-- Escaping of one character inside a serialised JSON string, as
JSON.stringify performs it. -/
def escJsonChar (c : Char) : List Char :=
  if c == '"' then ['\\', '"']
  else if c == '\\' then ['\\', '\\']
  else if c.toNat == 8 then ['\\', 'b']
  else if c.toNat == 12 then ['\\', 'f']
  else if c == '\n' then ['\\', 'n']
  else if c == '\r' then ['\\', 'r']
  else if c == '\t' then ['\\', 't']
  else if Nat.ble c.toNat 31 then
    ['\\', 'u', '0', '0', hexDigit (c.toNat / 16), hexDigit (c.toNat % 16)]
  else [c]

/-- Serialised JSON string with quotes, as JSON.stringify quotes keys and
string values. -/
def jsonQuoteStr (s : List Char) : List Char :=
  '"' :: (s.flatMap escJsonChar) ++ ['"']

mutual

/-- Model of JSON.stringify(v, null, 2) restricted to parse results:
two-space indentation, fields in source order, numbers rendered by
their lexeme (identical to the double rendering for the canonical
numerals of the claims). -/
def serJson : List Char → Json → List Char
  | _, Json.null => "null".toList
  | _, Json.bool true => "true".toList
  | _, Json.bool false => "false".toList
  | _, Json.num lex => lex
  | _, Json.str s => jsonQuoteStr s
  | _, Json.arr JsonList.nil => "[]".toList
  | ind, Json.arr (JsonList.cons x xs) =>
    '[' :: '\n' :: (ind ++ "  ".toList) ++ serJson (ind ++ "  ".toList) x ++
      serItemsTail (ind ++ "  ".toList) xs ++ '\n' :: ind ++ [']']
  | _, Json.obj JsonFields.nil => "\x7b\x7d".toList
  | ind, Json.obj (JsonFields.cons k v fs) =>
    '\x7b' :: '\n' :: (ind ++ "  ".toList) ++ jsonQuoteStr k ++ ':' :: ' ' ::
      serJson (ind ++ "  ".toList) v ++ serFieldsTail (ind ++ "  ".toList) fs ++
      '\n' :: ind ++ ['\x7d']

/-- Remaining array items, each on its own indented line. -/
def serItemsTail : List Char → JsonList → List Char
  | _, JsonList.nil => []
  | ind, JsonList.cons x xs =>
    ',' :: '\n' :: ind ++ serJson ind x ++ serItemsTail ind xs

/-- Remaining object members, each on its own indented line. -/
def serFieldsTail : List Char → JsonFields → List Char
  | _, JsonFields.nil => []
  | ind, JsonFields.cons k v fs =>
    ',' :: '\n' :: ind ++ jsonQuoteStr k ++ ':' :: ' ' :: serJson ind v ++
      serFieldsTail ind fs

end

/-- Model of JSON.stringify(v, null, 2) at top level. -/
def jsStringify2 (v : Json) : List Char :=
  serJson [] v

/-- Does the trimmed text begin with an opening bracket or brace, the
isMongo test of highlightCode line 188. -/
def startsBracket (cs : List Char) : Bool :=
  match cs with
  | c :: _ => c == '[' || c == '\x7b'
  | [] => false

/-- Model of highlightCode (src/index.tsx lines 186-230): trim, JSON
pretty-print when the text looks like JSON and parses (parse failure is
swallowed and the text kept), HTML-escape, then the fixed sequence of
highlighting passes. The function is total: no input makes it raise. -/
def highlightCode (code : String) : String :=
  let t := jsTrimL code.toList
  let f :=
    if startsBracket t then
      match jsParseJson t with
      | some v => jsStringify2 v
      | none => t
    else t
  String.mk (applyAllRules (escapeHtml f))

/-- Property read on a parse result, as the source reads
data.confidenceScore and friends: defined fields of an object (the last
binding of a duplicated key wins, as in JSON.parse); every other access
yields undefined, modelled as none. -/
def lookupLastKey (k : List Char) : JsonFields → Option Json
  | JsonFields.nil => none
  | JsonFields.cons k2 v rest =>
    match lookupLastKey k rest with
    | some r => some r
    | none => if k2 == k then some v else none

/-- Property access data[key] on a JSON value. -/
def propGet (v : Json) (key : String) : Option Json :=
  match v with
  | Json.obj fs => lookupLastKey key.toList fs
  | _ => none

/-- Does the written numeral denote a nonzero number: some mantissa digit
before the exponent marker is nonzero. -/
def mantissaNonzero (lex : List Char) : Bool :=
  (lex.takeWhile (fun c => !(c == 'e' || c == 'E'))).any
    (fun c => c.isDigit && !(c == '0'))

/-- JavaScript truthiness of a parsed JSON value: null, false, zero and
the empty string are falsy; objects and arrays are truthy. -/
def Json.truthy : Json → Bool
  | Json.null => false
  | Json.bool b => b
  | Json.num lex => mantissaNonzero lex
  | Json.str s => !s.isEmpty
  | Json.arr _ => true
  | Json.obj _ => true

mutual

/-- JavaScript ToString of a parsed JSON value, as applied when a field
is assigned to textContent or spliced into a template literal: strings
verbatim, numbers by their lexeme, booleans and null by name, arrays by
comma-joined elements with null elements empty, objects by the fixed
object tag. -/
def jsToStr : Json → List Char
  | Json.str s => s
  | Json.num lex => lex
  | Json.bool true => "true".toList
  | Json.bool false => "false".toList
  | Json.null => "null".toList
  | Json.obj _ => "[object Object]".toList
  | Json.arr xs => arrJoin xs

/-- Comma join of array elements for Array.prototype.toString, with null
elements rendered empty. -/
def arrJoin : JsonList → List Char
  | JsonList.nil => []
  | JsonList.cons Json.null JsonList.nil => []
  | JsonList.cons x JsonList.nil => jsToStr x
  | JsonList.cons Json.null (JsonList.cons y xs) =>
    ',' :: arrJoin (JsonList.cons y xs)
  | JsonList.cons x (JsonList.cons y xs) =>
    jsToStr x ++ ',' :: arrJoin (JsonList.cons y xs)

end

/-- ToString on the String wrapper type. -/
def jsToString (v : Json) : String :=
  String.mk (jsToStr v)

/-- Numeric value of a run of decimal digits. -/
def digitsVal (ds : List Char) : Nat :=
  ds.foldl (fun a c => a * 10 + (c.toNat - 48)) 0

/-- Exact rational value of a JSON number lexeme. -/
def numLexValue (lex : List Char) : Rat :=
  let sgn : Int × List Char :=
    match lex with
    | '-' :: r => (-1, r)
    | _ => (1, lex)
  let l1 := sgn.2
  let ip := l1.takeWhile Char.isDigit
  let r1 := l1.drop ip.length
  let fpr : List Char × List Char :=
    match r1 with
    | '.' :: rr => (rr.takeWhile Char.isDigit, rr.drop (rr.takeWhile Char.isDigit).length)
    | _ => ([], r1)
  let fp := fpr.1
  let ev : Int :=
    match fpr.2 with
    | c :: rr =>
      if c == 'e' || c == 'E' then
        match rr with
        | '-' :: ds => -(Int.ofNat (digitsVal (ds.takeWhile Char.isDigit)))
        | '+' :: ds => Int.ofNat (digitsVal (ds.takeWhile Char.isDigit))
        | ds => Int.ofNat (digitsVal (ds.takeWhile Char.isDigit))
      else 0
    | [] => 0
  let mant : Int := sgn.1 * Int.ofNat (digitsVal (ip ++ fp))
  let e10 : Int := ev - Int.ofNat fp.length
  if e10 < 0 then mkRat mant (10 ^ (-e10).toNat)
  else mkRat (mant * 10 ^ e10.toNat) 1

/-- Model of ToNumber on a string (used when a non-number field meets
arithmetic): trimmed empty is zero, a signed decimal numeral its value;
the exotic formats (hex, infinity) that cannot arise from the claims are
not modelled and map to none (NaN). -/
def jsStrToNumQ (s : List Char) : Option Rat :=
  let t := jsTrimL s
  if t.isEmpty then some 0
  else
    let sgn : Int × List Char :=
      match t with
      | '-' :: rr => (-1, rr)
      | '+' :: rr => (1, rr)
      | _ => (1, t)
    let r := sgn.2
    let ip := r.takeWhile Char.isDigit
    let r1 := r.drop ip.length
    let fpr : List Char × List Char :=
      match r1 with
      | '.' :: rr => (rr.takeWhile Char.isDigit, rr.drop (rr.takeWhile Char.isDigit).length)
      | _ => ([], r1)
    if ip.isEmpty && fpr.1.isEmpty then none
    else
      let exr : Int × List Char :=
        match fpr.2 with
        | c :: rr =>
          if c == 'e' || c == 'E' then
            match rr with
            | '-' :: ds =>
              let dd := ds.takeWhile Char.isDigit
              if dd.isEmpty then (0, fpr.2)
              else (-(Int.ofNat (digitsVal dd)), ds.drop dd.length)
            | '+' :: ds =>
              let dd := ds.takeWhile Char.isDigit
              if dd.isEmpty then (0, fpr.2) else (Int.ofNat (digitsVal dd), ds.drop dd.length)
            | ds =>
              let dd := ds.takeWhile Char.isDigit
              if dd.isEmpty then (0, fpr.2) else (Int.ofNat (digitsVal dd), ds.drop dd.length)
          else (0, fpr.2)
        | [] => (0, fpr.2)
      if exr.2.isEmpty then
        let mant : Int := sgn.1 * Int.ofNat (digitsVal (ip ++ fpr.1))
        let e10 : Int := exr.1 - Int.ofNat fpr.1.length
        if e10 < 0 then some (mkRat mant (10 ^ (-e10).toNat))
        else some (mkRat (mant * 10 ^ e10.toNat) 1)
      else none

/-- Model of ToNumber of a parsed JSON value; none stands for NaN. -/
def toNumberQ : Json → Option Rat
  | Json.num lex => some (numLexValue lex)
  | Json.bool true => some 1
  | Json.bool false => some 0
  | Json.null => some 0
  | Json.str s => jsStrToNumQ s
  | Json.arr xs => jsStrToNumQ (arrJoin xs)
  | Json.obj _ => none

/-- Floor of a rational as an integer. -/
def ratFloor (q : Rat) : Int :=
  q.num.fdiv (q.den : Int)

/-- Model of Number.prototype.toFixed(0) on the exact value: sign split
as in the ECMAScript algorithm (the sign test reads the numerator, which
is negative exactly when the value is), then the integer nearest to the
absolute value, ties resolved to the larger integer. -/
def jsToFixed0 (q : Rat) : String :=
  if q.num < 0 then "-" ++ Nat.repr (ratFloor (-q + mkRat 1 2)).toNat
  else Nat.repr (ratFloor (q + mkRat 1 2)).toNat

/-- Rendering of a truthy confidence score, the template
(score * 100).toFixed(0) followed by a percent sign of
displayQueryResult line 252. -/
def confFixed0Pct (v : Json) : String :=
  match toNumberQ v with
  | some q => jsToFixed0 (q * 100) ++ "%"
  | none => "NaN%"

/-- The display fragments produced by displayQueryResult, one per target
element; sqlQueryText is the query string chosen by the fallback (the
local sqlQuery of line 258) and sqlHtml is its highlighted form assigned
to innerHTML. -/
structure DisplayStrings where
  confidence : String
  complexity : String
  time : String
  targets : String
  reasoning : String
  optimizationHtml : String
  sqlQueryText : String
  sqlHtml : String
deriving DecidableEq

/-- Truthiness fallback v || dflt followed by the ToString of the
assignment, as in the field displays of displayQueryResult. -/
def orFallback (v : Option Json) (dflt : String) : String :=
  match v with
  | some j => if j.truthy then jsToString j else dflt
  | none => dflt

/-- Model of displayQueryResult (src/index.tsx lines 236-268): the seven
display fragments with their truthiness fallbacks, for the executions
that complete. The DOM elements are taken as present. The source
function can also raise before completing (a property read off a null
response, or the trim call of highlightCode on a truthy non-string
query value); those raising executions are modelled by displayThrowMsg
below and routed to the catch of executeQuery, so this function is only
consulted where the source completes - there the query value reaching
the highlighter is a string and the ToString coercion is the identity. -/
def displayQueryResult (data : Json) : DisplayStrings :=
  let confidence :=
    match propGet data "confidenceScore" with
    | some j => if j.truthy then confFixed0Pct j else "N/A"
    | none => "N/A"
  let complexity := orFallback (propGet data "queryComplexity") "N/A"
  let time := orFallback (propGet data "estimatedExecutionTime") "N/A"
  let targets := orFallback (propGet data "targetDatabases") "N/A"
  let reasoning := orFallback (propGet data "queryReasoning") "No reasoning provided."
  let optimizationHtml :=
    match propGet data "optimizationApplied" with
    | some j =>
      if j.truthy then "<strong>Optimization Applied:</strong> " ++ jsToString j
      else ""
    | none => ""
  let sqlQueryText := orFallback (propGet data "generatedSQL") "-- No query generated --"
  ⟨confidence, complexity, time, targets, reasoning, optimizationHtml,
    sqlQueryText, highlightCode sqlQueryText⟩

/-- Outcome of the one external model call of executeQuery: the call
either throws (transport, authentication, remote failure) with an error
message, or resolves with a response body text. -/
inductive CallOutcome where
  | failure : String → CallOutcome
  | success : String → CallOutcome

/-- The view state toggled by executeQuery: the submit button disabled
flag, the visibility of the loading indicator, of the button text and of
the result container. -/
structure UiState where
  buttonDisabled : Bool
  loadingVisible : Bool
  buttonTextVisible : Bool
  resultVisible : Bool
deriving DecidableEq

/-- Everything observable of one executeQuery invocation: the alert shown
by local validation, whether the external call was made, the final view
state, the error fragment written to the analysis element, and the
display fragments handed to the formatter. -/
structure ExecOutcome where
  alerted : Option String
  callMade : Bool
  ui : UiState
  errorHtml : Option String
  displayed : Option DisplayStrings
deriving DecidableEq

/-- Prefix of the error fragment of executeQuery line 169, up to the
interpolated error message. -/
def errPrefix : String :=
  "<p style=\"color: var(--danger); grid-column: 1 / -1;\">An error occurred. Please check the console for details. <br> "

/-- The error fragment of executeQuery line 169 with the message spliced
in; the message text is a literal infix of the fragment. -/
def errorMessageHtml (msg : String) : String :=
  errPrefix ++ msg ++ "</p>"

/-- Modelled from the spec: the message of the exception thrown by
JSON.parse on a non-JSON body. The exact text is produced by the
JavaScript engine, not by repository code; the dispatcher only embeds
it verbatim in the visible error fragment, which is all the claims use. -/
def jsonParseErrorMessage (body : String) : String :=
  "Unexpected token in JSON: " ++ body

/-- Does the parse result hold a string value. -/
def Json.isStr : Json → Bool
  | Json.str _ => true
  | _ => false

/-- Modelled from the spec: the message of the TypeError the JavaScript
engine raises when displayQueryResult reads the confidence field off a
null response value (src/index.tsx line 252). The exact wording is
engine-produced, not repository code; the dispatcher only embeds it in
the visible error fragment. -/
def nullReadErrorMessage : String :=
  "Cannot read properties of null (reading confidenceScore)"

/-- Modelled from the spec: the message of the TypeError the JavaScript
engine raises when highlightCode calls trim on a truthy non-string
generated query value (src/index.tsx line 187). Engine-produced text,
embedded in the visible error fragment by the dispatcher. -/
def trimReadErrorMessage : String :=
  "code.trim is not a function"

/-- The exception displayQueryResult raises before completing, if any:
a null response throws on its first property read (line 252), and a
truthy non-string generated query value reaches the trim call of
highlightCode (line 267, after the text fields were assigned) and
throws there; both are raised inside the try block of executeQuery and
reach its catch. Every other parse result renders to completion. -/
def displayThrowMsg : Json → Option String
  | Json.null => some nullReadErrorMessage
  | data =>
    match propGet data "generatedSQL" with
    | some v => if v.truthy && !(v.isStr) then some trimReadErrorMessage else none
    | none => none

/-- Model of executeQuery (src/index.tsx lines 87-178): local validation
with alerts, the busy toggles, the try block around the external call
with JSON parsing of the body and the rendering call (whose own raises
on a null or trim-breaking response stay inside the try), the catch
block writing the error fragment and clearing the display via the empty
record, and the finally block restoring the submit control. The initial
view state is threaded through so the rejected paths leave it
untouched. -/
def executeQuery (questionText : String) (selectedDbs : List String)
    (ui0 : UiState) (outcome : CallOutcome) : ExecOutcome :=
  if questionText = "" ∨ jsTrimS questionText = "" then
    ⟨some "Please enter a query", false, ui0, none, none⟩
  else if selectedDbs.isEmpty then
    ⟨some "Please select at least one database.", false, ui0, none, none⟩
  else
    let afterTry : Option String × Option DisplayStrings :=
      match outcome with
      | CallOutcome.failure msg =>
        (some (errorMessageHtml msg), some (displayQueryResult (Json.obj JsonFields.nil)))
      | CallOutcome.success body =>
        match jsParseJsonStr body with
        | some data =>
          match displayThrowMsg data with
          | some m =>
            (some (errorMessageHtml m),
              some (displayQueryResult (Json.obj JsonFields.nil)))
          | none => (none, some (displayQueryResult data))
        | none =>
          (some (errorMessageHtml (jsonParseErrorMessage body)),
            some (displayQueryResult (Json.obj JsonFields.nil)))
    ⟨none, true,
      ⟨false, false, true, true⟩,
      afterTry.1, afterTry.2⟩

/-- Lowercasing of the query text, value.toLowerCase() of
validateQueryInput; the ASCII simple mapping, which covers the keyword
alphabet. -/
def toLowerList (s : String) : List Char :=
  s.toList.map Char.toLower

/-- Does the text start with the given pattern. -/
def startsWithL : List Char → List Char → Bool
  | _, [] => true
  | [], _ :: _ => false
  | c :: cs, p :: ps => c == p && startsWithL cs ps

/-- Does the text contain the given pattern as a contiguous substring,
the model of String.prototype.includes. -/
def includesL : List Char → List Char → Bool
  | [], p => p.isEmpty
  | c :: cs, p => startsWithL (c :: cs) p || includesL cs p

/-- The advisory keyword list of validateQueryInput line 324. -/
def mutationKeywords : List String :=
  ["delete", "drop", "truncate", "update", "insert"]

/-- Model of validateQueryInput (src/index.tsx lines 319-333): the input
is flagged (warning border applied) exactly when its lowercasing
contains one of the advisory keywords. -/
def validateQueryInput (value : String) : Bool :=
  let query := toLowerList value
  let isReadOnly := !(mutationKeywords.any (fun k => includesL query k.toList))
  !isReadOnly

/-- The border and box-shadow styles validateQueryInput writes. -/
structure InputStyle where
  borderColor : String
  boxShadow : String
deriving DecidableEq

/-- Styles applied by validateQueryInput: the warning pair when flagged,
the neutral pair otherwise. -/
def validateStyle (value : String) : InputStyle :=
  if validateQueryInput value then
    ⟨"var(--warning)", "0 0 0 3px rgba(245, 158, 11, 0.1)"⟩
  else ⟨"var(--border)", "none"⟩

/-- The record holding one present-but-falsy value for each display field
with a truthiness test, used to instantiate the falsy-fallback theorem. -/
def dFalsy : Json :=
  Json.obj
    (JsonFields.cons ("confidenceScore".toList) (Json.num ("0".toList))
      (JsonFields.cons ("generatedSQL".toList) (Json.str [])
        (JsonFields.cons ("queryReasoning".toList) (Json.str [])
          (JsonFields.cons ("optimizationApplied".toList) (Json.str [])
            JsonFields.nil))))

/-! Helper lemmas shared by the substring reasoning of the advisory
validation claims. -/

/-- Correctness of the textual starts-with check: the pattern is an
initial segment. -/
theorem startsWithL_correct (p : List Char) : ∀ l : List Char,
    (startsWithL l p = true ↔ ∃ t, l = p ++ t) := by
  induction p with
  | nil =>
    intro l
    simp [startsWithL]
  | cons a ps ih =>
    intro l
    cases l with
    | nil => simp [startsWithL]
    | cons c cs =>
      simp [startsWithL, Bool.and_eq_true, beq_iff_eq, ih, List.cons.injEq,
        exists_and_left]

/-- Correctness of the textual substring check modelling
String.prototype.includes: the pattern occurs contiguously. -/
theorem includesL_correct (p : List Char) : ∀ l : List Char,
    (includesL l p = true ↔ ∃ pre post, l = pre ++ p ++ post) := by
  intro l
  induction l with
  | nil =>
    simp only [includesL]
    constructor
    · intro h
      have hp : p = [] := by
        cases p with
        | nil => rfl
        | cons a as => simp [List.isEmpty] at h
      exact ⟨[], [], by simp [hp]⟩
    · rintro ⟨pre, post, h⟩
      have h2 := List.append_eq_nil.mp h.symm
      have h3 := List.append_eq_nil.mp h2.1
      simp [h3.2, List.isEmpty]
  | cons c cs ih =>
    simp only [includesL, Bool.or_eq_true, startsWithL_correct, ih]
    constructor
    · rintro (⟨t, ht⟩ | ⟨pre, post, h⟩)
      · exact ⟨[], t, by simpa using ht⟩
      · exact ⟨c :: pre, post, by simp [h]⟩
    · rintro ⟨pre, post, h⟩
      cases pre with
      | nil => exact Or.inl ⟨post, by simpa using h⟩
      | cons x xs =>
        right
        have h2 : c = x ∧ cs = xs ++ p ++ post := by simpa using h
        exact ⟨xs, post, h2.2⟩

/-- Each advisory keyword is all lowercase ASCII, hence fixed by the
lowercasing of the input. -/
theorem keyword_lower_fixed (k : String) (hk : k ∈ mutationKeywords) :
    (k.toList).map Char.toLower = k.toList := by
  simp only [mutationKeywords, List.mem_cons, List.not_mem_nil, or_false] at hk
  rcases hk with rfl | rfl | rfl | rfl | rfl <;> decide

/-- The flag of validateQueryInput holds exactly when the lowercased
input contains one of the advisory keywords. -/
theorem validate_flag_iff (s : String) :
    validateQueryInput s = true ↔
      ∃ k, k ∈ mutationKeywords ∧
        ∃ pre post, toLowerList s = pre ++ k.toList ++ post := by
  unfold validateQueryInput
  simp only [Bool.not_not, List.any_eq_true, includesL_correct]

/-! Claim theorems. -/

/-- C1: evaluation of highlightCode at the failing input of the claim,
the query text of the specification example. The keyword, number and
comment matches are made as the claim says, but the double-quoted-string
rule then re-matches the class attribute of the comment span inserted by
the earlier rule, so the output markup is corrupted: it contains the
fragment with a span open tag nested inside the class attribute of the
comment span. -/
theorem c1_highlight_corruption_eval :
    highlightCode "SELECT * FROM users WHERE age > 18 -- adults" =
      "<span class=\"token-keyword\">SELECT</span> * <span class=\"token-keyword\">FROM</span> users <span class=\"token-keyword\">WHERE</span> age &gt; <span class=\"token-number\">18</span> <span class=<span class=\"token-string\">\"token-comment\"</span>>-- adults</span>" := by
  decide

/-- C2: highlightCode on the document-query text of the claim first
replaces it with its 2-space-indented pretty-printing, then wraps the
quoted operators in keyword style (re-wrapped from string style), leaves
the plain key in string style and wraps 18 in number style. -/
theorem c2_mongo_pretty_highlight :
    highlightCode "\x7b\"$match\": \x7b\"age\": \x7b\"$gt\": 18\x7d\x7d\x7d" =
      "\x7b\n  <span class=\"token-keyword\">\"$match\"</span>: \x7b\n    <span class=\"token-string\">\"age\"</span>: \x7b\n      <span class=\"token-keyword\">\"$gt\"</span>: <span class=\"token-number\">18</span>\n    \x7d\n  \x7d\n\x7d" := by
  decide

/-- C3: when the trimmed text begins with a bracket or brace but does not
parse as JSON, highlightCode leaves the text structurally unchanged (no
pretty-printing) and still HTML-escapes it and applies the token rules;
the function is total, so no exception reaches the caller. -/
theorem c3_parse_failure_keeps_text (s : String)
    (h1 : startsBracket (jsTrimL s.toList) = true)
    (h2 : jsParseJson (jsTrimL s.toList) = none) :
    highlightCode s = String.mk (applyAllRules (escapeHtml (jsTrimL s.toList))) := by
  have h1a : startsBracket (jsTrimL s.data) = true := h1
  have h2a : jsParseJson (jsTrimL s.data) = none := h2
  simp [highlightCode, h1a, h2a]

/-- Closed instance of the parse-failure path at the malformed text of
the claim. -/
theorem c3_witness :
    startsBracket (jsTrimL ("\x7b\"a\": \x7d".toList)) = true ∧
    jsParseJson (jsTrimL ("\x7b\"a\": \x7d".toList)) = none ∧
    highlightCode "\x7b\"a\": \x7d" =
      String.mk (applyAllRules (escapeHtml (jsTrimL ("\x7b\"a\": \x7d".toList)))) :=
  ⟨rfl, rfl, c3_parse_failure_keeps_text "\x7b\"a\": \x7d" rfl rfl⟩

/-- C4: a submission whose question text trims to empty, or with no
selected engines, is rejected with one of the two alert warnings before
dispatch; no external call is made, nothing is displayed and the view
state is untouched. -/
theorem c4_local_validation_rejects (q : String) (dbs : List String)
    (ui : UiState) (oc : CallOutcome) (h : jsTrimS q = "" ∨ dbs = []) :
    (executeQuery q dbs ui oc).callMade = false ∧
    ((executeQuery q dbs ui oc).alerted = some "Please enter a query" ∨
      (executeQuery q dbs ui oc).alerted = some "Please select at least one database.") ∧
    (executeQuery q dbs ui oc).displayed = none ∧
    (executeQuery q dbs ui oc).ui = ui := by
  by_cases hq : q = "" ∨ jsTrimS q = ""
  · unfold executeQuery
    rw [if_pos hq]
    exact ⟨rfl, Or.inl rfl, rfl, rfl⟩
  · have hd : dbs = [] := by
      rcases h with h | h
      · exact absurd (Or.inr h) hq
      · exact h
    subst hd
    unfold executeQuery
    rw [if_neg hq]
    exact ⟨rfl, Or.inr rfl, rfl, rfl⟩

/-- Closed instance of the local-validation rejection at a
whitespace-only question. -/
theorem c4_witness :
    jsTrimS "   " = "" ∧
    ((executeQuery "   " ["postgresql"] ⟨false, false, true, false⟩
        (CallOutcome.failure "x")).callMade = false ∧
      ((executeQuery "   " ["postgresql"] ⟨false, false, true, false⟩
          (CallOutcome.failure "x")).alerted = some "Please enter a query" ∨
        (executeQuery "   " ["postgresql"] ⟨false, false, true, false⟩
            (CallOutcome.failure "x")).alerted =
          some "Please select at least one database.") ∧
      (executeQuery "   " ["postgresql"] ⟨false, false, true, false⟩
          (CallOutcome.failure "x")).displayed = none ∧
      (executeQuery "   " ["postgresql"] ⟨false, false, true, false⟩
          (CallOutcome.failure "x")).ui = ⟨false, false, true, false⟩) :=
  ⟨rfl, c4_local_validation_rejects "   " ["postgresql"] ⟨false, false, true, false⟩
      (CallOutcome.failure "x") (Or.inl rfl)⟩

/-- C5: every dispatched submission, whatever the call outcome (thrown
failure, parseable body or non-JSON body), ends with the submit control
enabled, the loading indicator hidden and the button text shown; the
model is a total function, so no failure path escapes as an unhandled
fault. -/
theorem c5_control_restored (q : String) (dbs : List String) (ui : UiState)
    (oc : CallOutcome) (h1 : ¬(q = "" ∨ jsTrimS q = "")) (h2 : dbs ≠ []) :
    (executeQuery q dbs ui oc).callMade = true ∧
    (executeQuery q dbs ui oc).ui.buttonDisabled = false ∧
    (executeQuery q dbs ui oc).ui.loadingVisible = false ∧
    (executeQuery q dbs ui oc).ui.buttonTextVisible = true := by
  cases dbs with
  | nil => exact absurd rfl h2
  | cons d ds =>
    unfold executeQuery
    rw [if_neg h1]
    exact ⟨rfl, rfl, rfl, rfl⟩

/-- Closed instance of the control-restoration guarantee on a failing
call. -/
theorem c5_witness :
    (¬("list users" = "" ∨ jsTrimS "list users" = "")) ∧
    ((executeQuery "list users" ["postgresql"] ⟨false, false, true, false⟩
        (CallOutcome.failure "network down")).callMade = true ∧
      (executeQuery "list users" ["postgresql"] ⟨false, false, true, false⟩
          (CallOutcome.failure "network down")).ui.buttonDisabled = false ∧
      (executeQuery "list users" ["postgresql"] ⟨false, false, true, false⟩
          (CallOutcome.failure "network down")).ui.loadingVisible = false ∧
      (executeQuery "list users" ["postgresql"] ⟨false, false, true, false⟩
          (CallOutcome.failure "network down")).ui.buttonTextVisible = true) :=
  ⟨by decide, c5_control_restored "list users" ["postgresql"]
      ⟨false, false, true, false⟩ (CallOutcome.failure "network down")
      (by decide) (by decide)⟩

/-- C7: whenever the confidence score field is present as a truthy
number, the rendered confidence is the exact value times 100, fixed to
zero decimals (nearest integer, ties to the larger), followed by a
percent sign. -/
theorem c7_confidence_formula (data : Json) (lex : List Char)
    (h1 : propGet data "confidenceScore" = some (Json.num lex))
    (h2 : mantissaNonzero lex = true) :
    (displayQueryResult data).confidence =
      jsToFixed0 (numLexValue lex * 100) ++ "%" := by
  simp [displayQueryResult, h1, Json.truthy, h2, confFixed0Pct, toNumberQ]

/-- Closed instance of the confidence rendering at the score 0.873 of
the claim, displayed as exactly 87 percent. -/
theorem c7_witness :
    propGet (Json.obj (JsonFields.cons ("confidenceScore".toList)
        (Json.num ("0.873".toList)) JsonFields.nil)) "confidenceScore" =
      some (Json.num ("0.873".toList)) ∧
    mantissaNonzero ("0.873".toList) = true ∧
    (displayQueryResult (Json.obj (JsonFields.cons ("confidenceScore".toList)
        (Json.num ("0.873".toList)) JsonFields.nil))).confidence = "87%" :=
  ⟨rfl, rfl,
    (c7_confidence_formula
        (Json.obj (JsonFields.cons ("confidenceScore".toList)
          (Json.num ("0.873".toList)) JsonFields.nil))
        ("0.873".toList) rfl rfl).trans (by with_unfolding_all rfl)⟩

/-- C8: each display field falls back independently when its source field
is absent: missing confidence, complexity, time or targets render the
not-available marker, missing reasoning renders the fixed placeholder
sentence, missing optimization renders the empty fragment, and a missing
generated query makes the fixed placeholder comment the query string
handed to the highlighter. -/
theorem c8_missing_field_fallbacks (data : Json) :
    (propGet data "confidenceScore" = none →
      (displayQueryResult data).confidence = "N/A") ∧
    (propGet data "queryComplexity" = none →
      (displayQueryResult data).complexity = "N/A") ∧
    (propGet data "estimatedExecutionTime" = none →
      (displayQueryResult data).time = "N/A") ∧
    (propGet data "targetDatabases" = none →
      (displayQueryResult data).targets = "N/A") ∧
    (propGet data "queryReasoning" = none →
      (displayQueryResult data).reasoning = "No reasoning provided.") ∧
    (propGet data "optimizationApplied" = none →
      (displayQueryResult data).optimizationHtml = "") ∧
    (propGet data "generatedSQL" = none →
      (displayQueryResult data).sqlQueryText = "-- No query generated --") := by
  refine ⟨fun h => ?_, fun h => ?_, fun h => ?_, fun h => ?_, fun h => ?_,
    fun h => ?_, fun h => ?_⟩
  all_goals simp [displayQueryResult, orFallback, h]

/-- Closed instance of the fallbacks at the all-absent record. -/
theorem c8_witness :
    propGet (Json.obj JsonFields.nil) "generatedSQL" = none ∧
    (displayQueryResult (Json.obj JsonFields.nil)).confidence = "N/A" ∧
    (displayQueryResult (Json.obj JsonFields.nil)).reasoning =
      "No reasoning provided." ∧
    (displayQueryResult (Json.obj JsonFields.nil)).optimizationHtml = "" ∧
    (displayQueryResult (Json.obj JsonFields.nil)).sqlQueryText =
      "-- No query generated --" :=
  ⟨rfl, (c8_missing_field_fallbacks (Json.obj JsonFields.nil)).1 rfl,
    (c8_missing_field_fallbacks (Json.obj JsonFields.nil)).2.2.2.2.1 rfl,
    (c8_missing_field_fallbacks (Json.obj JsonFields.nil)).2.2.2.2.2.1 rfl,
    (c8_missing_field_fallbacks (Json.obj JsonFields.nil)).2.2.2.2.2.2 rfl⟩

/-- C9 counterexample: the advisory check lowercases the input before
matching, so a text containing NONE of the five literal (lowercase)
substrings is nevertheless flagged; the uppercase mutation word
demonstrates it. -/
theorem c9_counterexample :
    validateQueryInput "DROP the table" = true ∧
    includesL ("DROP the table".toList) ("delete".toList) = false ∧
    includesL ("DROP the table".toList) ("drop".toList) = false ∧
    includesL ("DROP the table".toList) ("truncate".toList) = false ∧
    includesL ("DROP the table".toList) ("update".toList) = false ∧
    includesL ("DROP the table".toList) ("insert".toList) = false := by
  decide

/-- C9 amended: the advisory flag is case-insensitive: the input is
flagged exactly when its lowercasing contains one of the five keywords
as a substring; in particular every text containing one of the literal
keywords is flagged. -/
theorem c9_amended_case_insensitive (s : String) :
    (validateQueryInput s = true ↔
      ∃ k, k ∈ mutationKeywords ∧
        ∃ pre post, toLowerList s = pre ++ k.toList ++ post) ∧
    (∀ k, k ∈ mutationKeywords →
      (∃ pre post, s.toList = pre ++ k.toList ++ post) →
      validateQueryInput s = true) := by
  refine ⟨validate_flag_iff s, ?_⟩
  rintro k hk ⟨pre, post, h⟩
  refine (validate_flag_iff s).mpr
    ⟨k, hk, pre.map Char.toLower, post.map Char.toLower, ?_⟩
  have h2 := congrArg (List.map Char.toLower) h
  simp only [List.map_append] at h2
  rw [keyword_lower_fixed k hk] at h2
  exact h2

/-- Closed instance of the amended advisory flag at a text containing a
literal keyword. -/
theorem c9_witness :
    ("delete" ∈ mutationKeywords) ∧ validateQueryInput "please delete it" = true :=
  ⟨by decide,
    (c9_amended_case_insensitive "please delete it").2 "delete" (by decide)
      ⟨("please ".toList), (" it".toList), by decide⟩⟩

/-- C10: the formatter tests presence by truthiness, so a present but
falsy field is rendered with the missing-field fallback: a zero
confidence score displays the not-available marker rather than a zero
percentage, and empty-string query, reasoning or optimization fields
render their placeholder or empty fallback as if absent. -/
theorem c10_falsy_uses_fallback (data v : Json) :
    (propGet data "confidenceScore" = some v → v.truthy = false →
      (displayQueryResult data).confidence = "N/A") ∧
    (propGet data "generatedSQL" = some v → v.truthy = false →
      (displayQueryResult data).sqlQueryText = "-- No query generated --") ∧
    (propGet data "queryReasoning" = some v → v.truthy = false →
      (displayQueryResult data).reasoning = "No reasoning provided.") ∧
    (propGet data "optimizationApplied" = some v → v.truthy = false →
      (displayQueryResult data).optimizationHtml = "") := by
  refine ⟨fun h ht => ?_, fun h ht => ?_, fun h ht => ?_, fun h ht => ?_⟩
  all_goals simp [displayQueryResult, orFallback, h, ht]

/-- Closed instance of the falsy fallbacks: a zero score and empty-string
fields display their fallbacks. -/
theorem c10_witness :
    propGet dFalsy "confidenceScore" = some (Json.num ("0".toList)) ∧
    (Json.num ("0".toList)).truthy = false ∧
    (displayQueryResult dFalsy).confidence = "N/A" ∧
    propGet dFalsy "generatedSQL" = some (Json.str []) ∧
    (Json.str ([] : List Char)).truthy = false ∧
    (displayQueryResult dFalsy).sqlQueryText = "-- No query generated --" ∧
    (displayQueryResult dFalsy).reasoning = "No reasoning provided." ∧
    (displayQueryResult dFalsy).optimizationHtml = "" :=
  ⟨rfl, rfl,
    (c10_falsy_uses_fallback dFalsy (Json.num ("0".toList))).1 rfl rfl,
    rfl, rfl,
    (c10_falsy_uses_fallback dFalsy (Json.str [])).2.1 rfl rfl,
    (c10_falsy_uses_fallback dFalsy (Json.str [])).2.2.1 rfl rfl,
    (c10_falsy_uses_fallback dFalsy (Json.str [])).2.2.2 rfl rfl⟩

end NLQ
